import Mathlib

/-!
# Verification of the recoANNIE raw-data processing chain

Shallow embedding of the recoANNIE sources (`src/RawCard.cc`, `src/RawChannel.cc`,
`src/RecoReadout.cc`, `build/crank/crank.cc`) in Lean 4, together with theorems
settling the specification claims about the demultiplexer, the event-approval
cut cascade, the Hefty timing reconstruction, the sequence-id stream merge, and
the error-propagation arithmetic.

Machine integers are modelled as `Nat`/`Int` (with explicit reduction modulo
2^16 where the C++ code converts `unsigned short` samples to `short`), C++
`double` values that only ever hold exactly representable quantities are
modelled as `Rat`, genuinely real-valued quantities (square roots from error
propagation) as `Real`, fallible C++ code (exceptions such as
`std::runtime_error` and `std::out_of_range`) as `Except String`.
-/

/-! ## Definitions: the shallow embedding of the sources -/

/-- Did an `Except` computation succeed (i.e. the C++ code did not throw)? -/
def isOkE {ε α : Type} : Except ε α → Bool
  | .ok _ => true
  | .error _ => false

/-- Key membership in an association list, modelling `std::map::count`/`find`. -/
def containsKey {κ α : Type} [DecidableEq κ] (m : List (κ × α)) (k : κ) : Bool :=
  m.any (fun p => decide (p.1 = k))

/-- Remove a key from an association list, modelling `std::map::erase`. -/
def eraseKey {κ α : Type} [DecidableEq κ] (m : List (κ × α)) (k : κ) : List (κ × α) :=
  m.filter (fun p => !decide (p.1 = k))

/-- Value lookup in an association list (`std::map::find` dereferenced). -/
def lookupKey {κ α : Type} [DecidableEq κ] (m : List (κ × α)) (k : κ) : Option α :=
  (m.find? (fun p => decide (p.1 = k))).map Prod.snd

/-- Checked element access, modelling `std::vector::at` / `std::map::at`
(which throw `std::out_of_range` on a missing key). -/
def vectorAt {α : Type} (v : List α) (i : ℕ) : Except String α :=
  match v.get? i with
  | some x => .ok x
  | none => .error "vector::at: out of range"

/-- The C++ conversion applied when the `unsigned short` samples of the flat
card buffer are copied into the `std::vector<short>` member
`annie::RawChannel::data_`: reduction modulo 2^16 into the signed range. -/
def toInt16 (x : ℕ) : ℤ :=
  if x % 65536 < 32768 then (x % 65536 : ℤ) else (x % 65536 : ℤ) - 65536

/-- `annie::RawChannel` (include/annie/RawChannel.hh): the channel index,
its rate, the demultiplexed ADC samples, and the number of minibuffers. -/
structure RawChannel where
  channel_number : ℕ
  rate : ℕ
  data : List ℤ
  num_minibuffers : ℕ
deriving Repr, DecidableEq

/-- `annie::RawChannel::RawChannel` (src/RawChannel.cc, lines 7-13): the
constructor receives two iterators into the flat card buffer, here modelled as
the buffer plus the two positions `begin_idx` and `end_idx`, and copies the
range [begin_idx, end_idx) into `data_`, converting every sample to `short`. -/
def RawChannel.construct (ChannelNumber : ℕ) (buf : List ℕ) (begin_idx end_idx : ℕ)
    (Rate MiniBufferCount : ℕ) : RawChannel :=
  { channel_number := ChannelNumber
    rate := Rate
    data := ((buf.drop begin_idx).take (end_idx - begin_idx)).map toInt16
    num_minibuffers := MiniBufferCount }

/-- `annie::RawChannel::minibuffer_data` (src/RawChannel.cc, lines 15-31):
returns the sample window of one minibuffer, failing when the index is out of
range. -/
def RawChannel.minibuffer_data (ch : RawChannel) (mb_index : ℕ) : Except String (List ℤ) :=
  if mb_index ≥ ch.num_minibuffers then
    .error "MiniBuffer index out-of-range in annie::RawChannel::minibuffer_data()"
  else
    let mb_size := ch.data.length / ch.num_minibuffers
    .ok ((ch.data.drop (mb_size * mb_index)).take mb_size)

/-- The tail of `annie::RawCard::add_channel` (src/RawCard.cc, lines 41-57):
bounds check on the channel's buffer region, then `channels_.emplace` of a
`RawChannel` built from the iterator pair
(`channel_begin`, `channel_begin + channel_buffer_size / 2`).
The new entry is appended; the claims below only access `channels_` through
key lookup, so the `std::map` key ordering is not observable here. -/
def add_channel_emplace (trigger_counts_size : ℕ) (channels : List (ℕ × RawChannel))
    (channel_number : ℕ) (full_buffer_data : List ℕ) (channel_buffer_size : ℕ)
    (rate : ℕ) : Except String (List (ℕ × RawChannel)) :=
  let start_index := channel_number * channel_buffer_size
  let end_index := (channel_number + 1) * channel_buffer_size
  if full_buffer_data.length < end_index then
    .error "Missing data for channel encountered in annie::RawCard::add_channel()"
  else
    .ok (channels ++ [(channel_number,
      RawChannel.construct channel_number full_buffer_data start_index
        (start_index + channel_buffer_size / 2) rate trigger_counts_size)])

/-- `annie::RawCard::add_channel` (src/RawCard.cc, lines 30-57): duplicate
check (erase when overwriting is allowed, throw otherwise), then the emplace
of the demultiplexed channel. -/
def add_channel (trigger_counts_size : ℕ) (channels : List (ℕ × RawChannel))
    (channel_number : ℕ) (full_buffer_data : List ℕ) (channel_buffer_size : ℕ)
    (rate : ℕ) (overwrite_ok : Bool) : Except String (List (ℕ × RawChannel)) :=
  if containsKey channels channel_number then
    if !overwrite_ok then
      .error "RawChannel overwrite attempted in annie::RawCard::add_channel()"
    else
      add_channel_emplace trigger_counts_size (eraseKey channels channel_number)
        channel_number full_buffer_data channel_buffer_size rate
  else
    add_channel_emplace trigger_counts_size channels channel_number
      full_buffer_data channel_buffer_size rate

/-- `annie::RawCard` (include/annie/RawCard.hh): card id, per-minibuffer
trigger counters, and the per-channel demultiplexed data. -/
structure RawCard where
  card_id : ℤ
  trigger_counts : List ℕ
  channels : List (ℕ × RawChannel)
deriving Repr, DecidableEq

/-- The channel-creation loop of the `RawCard` constructor (src/RawCard.cc,
line 25): for c = 0 .. Channels-1, `add_channel(c, Data, BufferSize,
Rates.at(c))`. The first argument of the recursion is the number of channels
still to add, the second the next channel index. -/
def add_channels_loop (trigger_counts_size : ℕ) (Data : List ℕ) (BufferSize : ℕ)
    (Rates : List ℕ) : ℕ → ℕ → List (ℕ × RawChannel) →
    Except String (List (ℕ × RawChannel))
  | 0, _, acc => .ok acc
  | n + 1, c, acc => do
      let r ← vectorAt Rates c
      let acc' ← add_channel trigger_counts_size acc c Data BufferSize r false
      add_channels_loop trigger_counts_size Data BufferSize Rates n (c + 1) acc'

/-- `annie::RawCard::RawCard` (src/RawCard.cc, lines 4-27): the two size
checks (note that the first compares `Channels` against the *truncating
integer division* `Data.size() / BufferSize`), then the channel loop. -/
def RawCard.construct (CardID : ℤ) (Channels BufferSize MiniBufferSize : ℕ)
    (Data : List ℕ) (TriggerCounts : List ℕ) (Rates : List ℕ) :
    Except String RawCard :=
  if Channels ≠ Data.length / BufferSize then
    .error "Mismatch between number of channels and channel buffer size in annie::RawCard::RawCard()"
  else if TriggerCounts.length ≠ BufferSize / MiniBufferSize then
    .error "Mismatch between number of minibuffers and minibuffer size in annie::RawCard::RawCard()"
  else do
    let chans ← add_channels_loop TriggerCounts.length Data BufferSize Rates Channels 0 []
    .ok { card_id := CardID, trigger_counts := TriggerCounts, channels := chans }

/-- Modelled from the spec: `annie::RecoPulse` (include/annie/RecoPulse.hh is
not among the provided sources; spec section 3, "Pulse"): `start_time`
(integer, device-buffer-relative, nanoseconds, non-negative), `amplitude`,
`charge`, `raw_amplitude`; immutable once produced. Only `start_time` and
`charge` are read by the code verified here. -/
structure RecoPulse where
  start_time : ℕ
  amplitude : ℚ
  charge : ℚ
  raw_amplitude : ℕ
deriving Repr, DecidableEq

/-- The VME cards that watch water-tank PMTs (src/RecoReadout.cc, lines 12-13). -/
def water_pmt_cards : List ℤ := [3, 4, 5, 6, 8, 9, 10, 11, 13, 14, 15, 16, 18, 19, 20]

/-- The (card, channel) pairs excluded from the tank charge
(src/RecoReadout.cc, lines 17-23): NCV PMT #1 (4,1), the neutron calibration
source trigger input (8,2), the cosmic trigger input (14,0), NCV PMT #2
(listed in the source's comment as "NCV PMT #1") (18,0). -/
def excluded_card_channel_pairs : List (ℤ × ℤ) := [(4, 1), (8, 2), (14, 0), (18, 0)]

/-- Minibuffer index → pulse vector (innermost level of `pulses_`). -/
abbrev MinibufferPulseMap : Type := List (ℤ × List RecoPulse)

/-- Channel index → minibuffer map (middle level of `pulses_`). -/
abbrev ChannelPulseMap : Type := List (ℤ × MinibufferPulseMap)

/-- Card index → channel map (outer level of `pulses_`). -/
abbrev CardPulseMap : Type := List (ℤ × ChannelPulseMap)

instance : DecidableEq (ℤ × List RecoPulse) := inferInstance

instance : DecidableEq (ℤ × MinibufferPulseMap) := inferInstance

instance : DecidableEq (ℤ × ChannelPulseMap) := inferInstance

instance : DecidableEq CardPulseMap := inferInstance

/-- `annie::RecoReadout` (include/annie/RecoReadout.hh): sequence id plus the
three-level pulse map. -/
structure RecoReadout where
  sequence_id : ℤ
  pulses : CardPulseMap
deriving Repr, DecidableEq

/-- `std::map::at` for the integer-keyed pulse maps: throws
`std::out_of_range` when the key is absent. -/
def mapAt {α : Type} (m : List (ℤ × α)) (k : ℤ) : Except String α :=
  match lookupKey m k with
  | some v => .ok v
  | none => .error "map::at: key not found"

/-- `annie::RecoReadout::get_pulses` (src/RecoReadout.cc, lines 73-77):
three chained `at` lookups. -/
def RecoReadout.get_pulses (rr : RecoReadout)
    (card_number channel_number minibuffer_number : ℤ) :
    Except String (List RecoPulse) := do
  let card_map ← mapAt rr.pulses card_number
  let channel_map ← mapAt card_map channel_number
  mapAt channel_map minibuffer_number

/-- Total charge of a pulse vector. -/
def chargeSum (ps : List RecoPulse) : ℚ := (ps.map RecoPulse.charge).sum

/-- The channel loop of `annie::RecoReadout::tank_charge`
(src/RecoReadout.cc, lines 90-104): skip excluded (card, channel) pairs, then
accumulate the charge of every pulse stored for `minibuffer_number`;
`minibuffer_map.at(minibuffer_number)` throws when the key is absent. -/
def tank_charge_channels (card_id minibuffer_number : ℤ) :
    ChannelPulseMap → Except String ℚ
  | [] => .ok 0
  | (channel_id, minibuffer_map) :: rest =>
    if (card_id, channel_id) ∈ excluded_card_channel_pairs then
      tank_charge_channels card_id minibuffer_number rest
    else do
      let ps ← mapAt minibuffer_map minibuffer_number
      let s ← tank_charge_channels card_id minibuffer_number rest
      .ok (chargeSum ps + s)

/-- The card loop of `annie::RecoReadout::tank_charge` (src/RecoReadout.cc,
lines 82-105): only cards on the water-tank list contribute. -/
def tank_charge_cards (minibuffer_number : ℤ) : CardPulseMap → Except String ℚ
  | [] => .ok 0
  | (card_id, channel_map) :: rest =>
    if card_id ∈ water_pmt_cards then do
      let a ← tank_charge_channels card_id minibuffer_number channel_map
      let b ← tank_charge_cards minibuffer_number rest
      .ok (a + b)
    else tank_charge_cards minibuffer_number rest

/-- `annie::RecoReadout::tank_charge` (one-argument overload,
src/RecoReadout.cc, lines 79-108). -/
def RecoReadout.tank_charge (rr : RecoReadout) (minibuffer_number : ℤ) :
    Except String ℚ :=
  tank_charge_cards minibuffer_number rr.pulses

/-- Dead-time veto length (crank.cc, line 27), ns. -/
def VETO_TIME : ℚ := 1000

/-- Tank-charge window length (crank.cc, line 52), ns. -/
def TANK_CHARGE_WINDOW_LENGTH : ℕ := 40

/-- Unique water PMT threshold (crank.cc, line 53). -/
def UNIQUE_WATER_PMT_CUT : ℕ := 8

/-- Tank-charge threshold (crank.cc, line 54), nC. -/
def TANK_CHARGE_CUT : ℚ := 3

/-- NCV coincidence tolerance (crank.cc, line 56), ns. -/
def COINCIDENCE_TOLERANCE : ℤ := 40

/-- Keep the pulses whose start times lie in the window [t0, t1). -/
def pulsesInWindow (t0 t1 : ℕ) (ps : List RecoPulse) : List RecoPulse :=
  ps.filter (fun p => decide (t0 ≤ p.start_time) && decide (p.start_time < t1))

/-- Modelled from the spec: channel loop of the four-argument overload
`annie::RecoReadout::tank_charge(minibuffer, t0, t1, num_unique_pmts)`.
That overload is called by `approve_event` (crank.cc, lines 140-143) and by
reco-annie.cc but is not defined anywhere in the provided sources (only its
call sites exist). Following spec section 4.4 (cut 2) and the Pulse Aggregator
description, and the channel/card filtering of the in-source one-argument
overload: sum the charge of all pulses of non-excluded water-tank channels
whose start times lie in [t0, t1) and count the distinct channels contributing
at least one such pulse. A channel with no entry for the minibuffer
contributes nothing (the spec does not discuss absent entries for this
overload). Returns (total charge, unique contributing PMT count). -/
def tank_charge_window_channels (card_id mb : ℤ) (t0 t1 : ℕ) :
    ChannelPulseMap → ℚ × ℕ
  | [] => (0, 0)
  | (channel_id, minibuffer_map) :: rest =>
    let acc := tank_charge_window_channels card_id mb t0 t1 rest
    if (card_id, channel_id) ∈ excluded_card_channel_pairs then acc
    else
      let ps := pulsesInWindow t0 t1 ((lookupKey minibuffer_map mb).getD [])
      (chargeSum ps + acc.1, if ps.isEmpty then acc.2 else acc.2 + 1)

/-- Modelled from the spec: card loop of the four-argument tank-charge
overload; only water-tank cards contribute (as in the in-source one-argument
overload). -/
def tank_charge_window_cards (mb : ℤ) (t0 t1 : ℕ) : CardPulseMap → ℚ × ℕ
  | [] => (0, 0)
  | (card_id, channel_map) :: rest =>
    let acc := tank_charge_window_cards mb t0 t1 rest
    if card_id ∈ water_pmt_cards then
      let c := tank_charge_window_channels card_id mb t0 t1 channel_map
      (c.1 + acc.1, c.2 + acc.2)
    else acc

/-- Modelled from the spec: the four-argument
`annie::RecoReadout::tank_charge` overload (see
`tank_charge_window_channels`). -/
def RecoReadout.tank_charge_window (rr : RecoReadout) (mb : ℤ) (t0 t1 : ℕ) :
    ℚ × ℕ :=
  tank_charge_window_cards mb t0 t1 rr.pulses

/-- The NCV coincidence scan of `approve_event` (crank.cc, lines 148-159):
some pulse of the paired channel (card 18, channel 0) starts within
COINCIDENCE_TOLERANCE of the candidate. -/
def ncv_coincidence_found (first_ncv1_pulse : RecoPulse)
    (ncv2_pulses : List RecoPulse) : Bool :=
  ncv2_pulses.any (fun pulse =>
    decide (|(first_ncv1_pulse.start_time : ℤ) - (pulse.start_time : ℤ)| <
      COINCIDENCE_TOLERANCE))

/-- `approve_event` (crank.cc, lines 135-162): dead-time veto, tank-wide
charge veto (unique PMT count and total charge), then the NCV coincidence
requirement, short-circuiting on the first failing cut. The call
`readout.get_pulses(18, 0, minibuffer_index)` can throw. -/
def approve_event (event_time old_time : ℚ) (first_ncv1_pulse : RecoPulse)
    (readout : RecoReadout) (minibuffer_index : ℤ) : Except String Bool :=
  if event_time ≤ old_time + VETO_TIME then .ok false
  else if (readout.tank_charge_window minibuffer_index
      first_ncv1_pulse.start_time
      (first_ncv1_pulse.start_time + TANK_CHARGE_WINDOW_LENGTH)).2 ≥
      UNIQUE_WATER_PMT_CUT then .ok false
  else if (readout.tank_charge_window minibuffer_index
      first_ncv1_pulse.start_time
      (first_ncv1_pulse.start_time + TANK_CHARGE_WINDOW_LENGTH)).1 ≥
      TANK_CHARGE_CUT then .ok false
  else do
    let ncv2 ← readout.get_pulses 18 0 minibuffer_index
    .ok (ncv_coincidence_found first_ncv1_pulse ncv2)

/-- Claim-side (C3) description of the windowed tank charge: for every
non-excluded channel of every stored water-tank card, the group of its pulses
for the minibuffer whose start times fall in [t0, t1). -/
def c3_window_groups (rr : RecoReadout) (mb : ℤ) (t0 t1 : ℕ) :
    List (List RecoPulse) :=
  rr.pulses.bind (fun cp =>
    if cp.1 ∈ water_pmt_cards then
      cp.2.bind (fun chp =>
        if (cp.1, chp.1) ∈ excluded_card_channel_pairs then []
        else [pulsesInWindow t0 t1 ((lookupKey chp.2 mb).getD [])])
    else [])

/-- Minibuffer label constants (crank.cc, lines 30-37). -/
def BEAM_MINIBUFFER_LABEL : ℤ := 1

/-- NCV self-trigger label (crank.cc, line 32). -/
def NCV_MINIBUFFER_LABEL : ℤ := 2

/-- Calibration-source label (crank.cc, line 33). -/
def SOURCE_MINIBUFFER_LABEL : ℤ := 4

/-- Periodic-trigger label (crank.cc, line 35). -/
def PERIODIC_MINIBUFFER_LABEL : ℤ := 5

/-- Minimum-rate label (crank.cc, line 37). -/
def MINRATE_MINIBUFFER_LABEL : ℤ := 6

/-- Software-trigger label (crank.cc, line 36). -/
def SOFTWARE_MINIBUFFER_LABEL : ℤ := 7

/-- `is_background_minibuffer` (crank.cc, lines 126-131). -/
def is_background_minibuffer (label : ℤ) : Bool :=
  decide (label = SOFTWARE_MINIBUFFER_LABEL) ||
  decide (label = PERIODIC_MINIBUFFER_LABEL) ||
  decide (label = MINRATE_MINIBUFFER_LABEL)

/-- The error text of crank.cc line 391-392. -/
def invalid_timestamp_msg : String := "Invalid minibuffer timestamp encountered!"

/-- The label scan at the top of the Hefty minibuffer loop (crank.cc, lines
342-349): background labels only bump a counter; a beam label updates
`last_beam_time` to the minibuffer's absolute timestamp. -/
def update_last_beam_time (label : ℤ) (time last_beam_time : ℕ) : ℕ :=
  if is_background_minibuffer label then last_beam_time
  else if label = BEAM_MINIBUFFER_LABEL then time
  else last_beam_time

/-- The per-pulse event-time computation of the Hefty pulse loop (crank.cc,
lines 381-397): the event time starts as the pulse start time; for
non-calibration-source minibuffers the code throws when the minibuffer
timestamp precedes the last beam time, and otherwise adds the (unsigned,
guarded) difference `db_Time[m] - last_beam_time`. -/
def hefty_event_time (label : ℤ) (time last_beam_time : ℕ) (pulse : RecoPulse) :
    Except String ℚ :=
  if label ≠ SOURCE_MINIBUFFER_LABEL then
    if time < last_beam_time then .error invalid_timestamp_msg
    else .ok ((pulse.start_time : ℚ) + ((time - last_beam_time : ℕ) : ℚ))
  else .ok (pulse.start_time : ℚ)

/-- All event times of one Hefty minibuffer's NCV1 pulses, in pulse order
(projection of crank.cc lines 374-397; the approval/histogram block that
follows each computation does not influence the computed event times or the
timestamp check). -/
def hefty_minibuffer_event_times (label : ℤ) (time last_beam_time : ℕ) :
    List RecoPulse → Except String (List ℚ)
  | [] => .ok []
  | p :: ps => do
      let t ← hefty_event_time label time last_beam_time p
      let ts ← hefty_minibuffer_event_times label time last_beam_time ps
      .ok (t :: ts)

/-- The Hefty minibuffer loop of one chain, event times only (crank.cc, lines
340-397): minibuffers visited in ascending index order, each given as
(label, absolute timestamp, NCV1 pulses); the beam reference is updated before
the minibuffer's pulses are processed. Returns all computed event times in
visit order together with the final `last_beam_time`. -/
def hefty_event_time_loop : List (ℤ × ℕ × List RecoPulse) → ℕ →
    Except String (List ℚ × ℕ)
  | [], last_beam_time => .ok ([], last_beam_time)
  | (label, time, ps) :: rest, last_beam_time =>
      let last' := update_last_beam_time label time last_beam_time
      do
        let ts ← hefty_minibuffer_event_times label time last' ps
        let res ← hefty_event_time_loop rest last'
        .ok (ts ++ res.1, res.2)

/-- Claim-side (C2) reference time after visiting a list of minibuffers:
the absolute timestamp of the latest beam-labeled minibuffer, or the initial
value when none was seen. -/
def claim_ref_time (last0 : ℕ) : List (ℤ × ℕ × List RecoPulse) → ℕ
  | [] => last0
  | (label, time, _) :: rest =>
      claim_ref_time (if label = BEAM_MINIBUFFER_LABEL then time else last0) rest

/-- Claim-side (C2) event time of one pulse: start_time plus
(minibuffer timestamp − reference time) in exact integer arithmetic, with a
zero offset for calibration-source minibuffers. -/
def claim_event_time (label : ℤ) (time ref : ℕ) (pulse : RecoPulse) : ℚ :=
  if label = SOURCE_MINIBUFFER_LABEL then (pulse.start_time : ℚ)
  else (pulse.start_time : ℚ) + ((time : ℚ) - (ref : ℚ))

/-- Claim-side (C2) event times of a minibuffer stream, where the reference
seen by a minibuffer's pulses includes the minibuffer's own beam label. -/
def claim_event_times (last0 : ℕ) : List (ℤ × ℕ × List RecoPulse) → List ℚ
  | [] => []
  | (label, time, ps) :: rest =>
      let ref := if label = BEAM_MINIBUFFER_LABEL then time else last0
      ps.map (claim_event_time label time ref) ++ claim_event_times ref rest

/-- C2 validity: every minibuffer is a calibration-source one, or its
timestamp does not precede the reference in force while its pulses are
processed, or it has no pulses. -/
def c2_validB (last0 : ℕ) : List (ℤ × ℕ × List RecoPulse) → Bool
  | [] => true
  | (label, time, ps) :: rest =>
      let ref := if label = BEAM_MINIBUFFER_LABEL then time else last0
      (decide (label = SOURCE_MINIBUFFER_LABEL) || decide (ref ≤ time) ||
        ps.isEmpty) &&
      c2_validB ref rest

/-- `std::numeric_limits<double>::lowest()` (crank.cc, lines 193 and 379): the
most negative finite double, used as the start sentinel for
`previous_accepted_time` ("negative infinity" in the spec's words). -/
def DBL_LOWEST : ℚ := -(2 ^ 1024 - 2 ^ 971)

/-- The non-Hefty pulse loop over one readout's NCV1 pulses (crank.cc, lines
193-214): event time is the pulse start time; on approval the event is
histogrammed and `old_time` is updated. Returns the final `old_time` and the
accepted event times in order. -/
def nonhefty_pulse_loop (rr : RecoReadout) : List RecoPulse → ℚ →
    Except String (ℚ × List ℚ)
  | [], old_time => .ok (old_time, [])
  | pulse :: ps, old_time => do
      let ap ← approve_event (pulse.start_time : ℚ) old_time pulse rr 0
      if ap then do
        let res ← nonhefty_pulse_loop rr ps (pulse.start_time : ℚ)
        .ok (res.1, (pulse.start_time : ℚ) :: res.2)
      else nonhefty_pulse_loop rr ps old_time

/-- The non-Hefty loop starts from the lowest-double sentinel (crank.cc,
line 193). -/
def nonhefty_process_pulses (rr : RecoReadout) (ncv1_pulses : List RecoPulse) :
    Except String (ℚ × List ℚ) :=
  nonhefty_pulse_loop rr ncv1_pulses DBL_LOWEST

/-- One NCV1 pulse of one Hefty minibuffer (crank.cc, lines 380-431): compute
the event time, run the cut cascade; when approved with a known beam reference
(`last_beam_time != 0`) the event is histogrammed and `old_time` becomes the
event time; when approved with an unknown reference only a warning is printed
and the state is left alone. Returns (new old_time, approved?, filled event
time if any). -/
def hefty_pulse_step (rr : RecoReadout) (m label : ℤ) (time last_beam_time : ℕ)
    (old_time : ℚ) (pulse : RecoPulse) : Except String (ℚ × Bool × Option ℚ) := do
  let event_time ← hefty_event_time label time last_beam_time pulse
  let ap ← approve_event event_time old_time pulse rr m
  if ap then
    if last_beam_time ≠ 0 then .ok (event_time, true, some event_time)
    else .ok (old_time, true, none)
  else .ok (old_time, false, none)

/-- The Hefty pulse loop of one minibuffer (crank.cc, lines 379-432),
collecting the approval decisions and the filled (histogrammed) event times. -/
def hefty_pulse_loop (rr : RecoReadout) (m label : ℤ) (time last_beam_time : ℕ) :
    List RecoPulse → ℚ → Except String (ℚ × List Bool × List ℚ)
  | [], old_time => .ok (old_time, [], [])
  | pulse :: ps, old_time => do
      let step ← hefty_pulse_step rr m label time last_beam_time old_time pulse
      let res ← hefty_pulse_loop rr m label time last_beam_time ps step.1
      .ok (res.1, step.2.1 :: res.2.1, step.2.2.toList ++ res.2.2)

/-- The Hefty loop starts from the lowest-double sentinel per minibuffer
(crank.cc, line 379). -/
def hefty_process_pulses (rr : RecoReadout) (m label : ℤ) (time lb : ℕ)
    (ncv1_pulses : List RecoPulse) : Except String (ℚ × List Bool × List ℚ) :=
  hefty_pulse_loop rr m label time lb ncv1_pulses DBL_LOWEST

/-- A readout whose only stored pulses sit on the two excluded NCV channels:
the tank-charge veto sees nothing and the NCV coincidence scan succeeds. -/
def c5_readout : RecoReadout :=
  RecoReadout.mk 0 [(4, [(1, [(0, [RecoPulse.mk 50 0 0 0])])]),
                    (18, [(0, [(0, [RecoPulse.mk 55 0 0 0])])])]

/-- Ordered insertion into the SequenceID index, modelling the assignment
`sequenceID_to_entry[db_SequenceID] = idx` into a `std::map<int, int>`
(keys kept in ascending order; an existing key would be overwritten, though
the duplicate check prevents that). -/
def mapInsert (k : ℤ) (v : ℕ) : List (ℤ × ℕ) → List (ℤ × ℕ)
  | [] => [(k, v)]
  | (k', v') :: rest =>
      if k < k' then (k, v) :: (k', v') :: rest
      else if k = k' then (k, v) :: rest
      else (k', v') :: mapInsert k v rest

/-- The SequenceID index construction of `make_hefty_timing_hist` (crank.cc,
lines 307-319): scan the physical rows in storage order, fail on a repeated
SequenceID, record id → physical row index. -/
def build_sequence_index : List ℤ → ℕ → List (ℤ × ℕ) →
    Except String (List (ℤ × ℕ))
  | [], _, acc => .ok acc
  | id :: ids, idx, acc =>
      if containsKey acc id then
        .error ("Duplicate SequenceID value " ++ toString id ++ " encountered!")
      else build_sequence_index ids (idx + 1) (mapInsert id idx acc)

/-- One chain's SequenceID → entry-index map (crank.cc, lines 307-319); the
merge loop (crank.cc, line 326) then iterates this map in ascending key
order, which is the list order here. -/
def sequenceID_index (ids : List ℤ) : Except String (List (ℤ × ℕ)) :=
  build_sequence_index ids 0 []

/-- `ValueAndError` (crank.cc, lines 71-108): a scalar with its one-sigma
uncertainty. The genuinely real-valued error propagation (square roots) is
modelled over the exact reals. -/
structure ValueAndError where
  value : ℝ
  error : ℝ

/-- `ValueAndError::operator-` (crank.cc, lines 95-98): value difference,
quadrature-summed error. -/
noncomputable def ValueAndError.sub (a b : ValueAndError) : ValueAndError :=
  ⟨a.value - b.value, Real.sqrt (a.error ^ 2 + b.error ^ 2)⟩

/-- `ValueAndError::operator*` (crank.cc, lines 100-102) and `operator*=`
(lines 83-87): linear scaling of value and error by the factor. -/
noncomputable def ValueAndError.mulConst (a : ValueAndError) (factor : ℝ) :
    ValueAndError :=
  ⟨factor * a.value, factor * a.error⟩

/-- `ValueAndError::operator/` (crank.cc, lines 104-106) and `operator/=`
(lines 89-93): both components divided by the factor. -/
noncomputable def ValueAndError.divConst (a : ValueAndError) (factor : ℝ) :
    ValueAndError :=
  ⟨a.value / factor, a.error / factor⟩

/-- The error assignment after the non-Hefty accumulation loop (crank.cc,
lines 220-222): the bare Poisson square root, applied to the background and
raw-signal counts — no floor. -/
noncomputable def nonhefty_poisson_error (count : ℝ) : ℝ := Real.sqrt count

/-- The error assignment after the Hefty accumulation loop (crank.cc, lines
437-444), applied to the background, raw-signal and pre-beam-background
counts alike: the Poisson square root floored at 1. -/
noncomputable def hefty_poisson_error (count : ℝ) : ℝ :=
  max 1 (Real.sqrt count)

/-! ## Theorems -/

lemma except_bind_ok {ε α β : Type} (a : α) (f : α → Except ε β) :
    (Except.ok a >>= f) = f a := rfl

lemma except_bind_error {ε α β : Type} (e : ε) (f : α → Except ε β) :
    ((Except.error e : Except ε α) >>= f) = .error e := rfl

lemma isOkE_bind_pure {ε α β : Type} (x : Except ε α) (f : α → β) :
    isOkE (x >>= fun a => Except.ok (f a)) = isOkE x := by
  cases x <;> rfl

lemma containsKey_append_single {κ α : Type} [DecidableEq κ]
    (l : List (κ × α)) (c k : κ) (x : α) :
    containsKey (l ++ [(c, x)]) k = (containsKey l k || decide (c = k)) := by
  simp [containsKey]

lemma add_channels_loop_ok_iff (tcs : ℕ) (Data : List ℕ) (B : ℕ) (Rates : List ℕ)
    (n : ℕ) : ∀ (c : ℕ) (acc : List (ℕ × RawChannel)),
    (c + n) * B ≤ Data.length →
    (∀ k, containsKey acc k = true → k < c) →
    (isOkE (add_channels_loop tcs Data B Rates n c acc) = true ↔
      (n = 0 ∨ c + n ≤ Rates.length)) := by
  induction n with
  | zero =>
    intro c acc _ _
    simp [add_channels_loop, isOkE]
  | succ n ih =>
    intro c acc hdata hkeys
    rw [add_channels_loop]
    rcases hR : Rates.get? c with _ | r
    · have hlen : Rates.length ≤ c := List.get?_eq_none.mp hR
      simp only [vectorAt, hR, except_bind_error]
      constructor
      · intro h; exact absurd h Bool.false_ne_true
      · intro h
        exfalso
        rcases h with h | h
        · exact Nat.succ_ne_zero n h
        · omega
    · have hc : c < Rates.length := by
        rcases List.get?_eq_some.mp hR with ⟨h, _⟩
        exact h
      have hcontains : containsKey acc c = false := by
        cases h : containsKey acc c with
        | false => rfl
        | true => exact absurd (hkeys c h) (lt_irrefl c)
      have hend : (c + 1) * B ≤ Data.length :=
        le_trans (Nat.mul_le_mul_right B (by omega)) hdata
      simp only [vectorAt, hR, except_bind_ok]
      rw [add_channel, hcontains]
      simp only [Bool.false_eq_true, if_false]
      simp only [add_channel_emplace]
      rw [if_neg (Nat.not_lt.mpr hend), except_bind_ok]
      have hdata' : (c + 1 + n) * B ≤ Data.length := by
        have h : c + 1 + n = c + (n + 1) := by omega
        rw [h]; exact hdata
      have hkeys' : ∀ k, containsKey (acc ++ [(c,
          RawChannel.construct c Data (c * B) (c * B + B / 2) r tcs)]) k = true →
          k < c + 1 := by
        intro k hk
        rw [containsKey_append_single] at hk
        rcases Bool.or_eq_true_iff.mp hk with h | h
        · exact Nat.lt_succ_of_lt (hkeys k h)
        · have h' : c = k := of_decide_eq_true h
          omega
      rw [ih (c + 1) _ hdata' hkeys']
      omega

/-- C8 (amended): with positive buffer and minibuffer sizes, constructing a
raw card succeeds if and only if `Channels` equals the *truncating integer
division* `Data.length / BufferSize` (not the exact product relation claimed),
the number of trigger counters equals `BufferSize / MiniBufferSize`, and the
`Rates` vector has at least `Channels` entries (`Rates.at(c)` throws
otherwise). -/
theorem C8_construct_ok_iff (CardID : ℤ) (Channels BufferSize MiniBufferSize : ℕ)
    (Data TriggerCounts Rates : List ℕ)
    (hB : 0 < BufferSize) (hM : 0 < MiniBufferSize) :
    isOkE (RawCard.construct CardID Channels BufferSize MiniBufferSize Data
        TriggerCounts Rates) = true ↔
      (Channels = Data.length / BufferSize ∧
       TriggerCounts.length = BufferSize / MiniBufferSize ∧
       Channels ≤ Rates.length) := by
  rw [RawCard.construct]
  by_cases h1 : Channels = Data.length / BufferSize
  · by_cases h2 : TriggerCounts.length = BufferSize / MiniBufferSize
    · rw [if_neg (not_not_intro h1), if_neg (not_not_intro h2)]
      have hdata : (0 + Channels) * BufferSize ≤ Data.length := by
        have h := Nat.div_mul_le_self Data.length BufferSize
        rw [Nat.zero_add, h1]
        exact h
      have hkeys : ∀ k, containsKey ([] : List (ℕ × RawChannel)) k = true → k < 0 := by
        intro k hk
        simp [containsKey] at hk
      have hiff := add_channels_loop_ok_iff TriggerCounts.length Data BufferSize
        Rates Channels 0 [] hdata hkeys
      rcases hx : add_channels_loop TriggerCounts.length Data BufferSize Rates
          Channels 0 [] with e | chans
      · rw [hx] at hiff
        rw [except_bind_error]
        constructor
        · intro h; exact absurd h Bool.false_ne_true
        · intro h
          exfalso
          have hno : ¬ (Channels = 0 ∨ 0 + Channels ≤ Rates.length) := by
            intro hyes
            exact absurd (hiff.mpr hyes) Bool.false_ne_true
          have hle := h.2.2
          omega
      · rw [hx] at hiff
        rw [except_bind_ok]
        constructor
        · intro _
          refine ⟨h1, h2, ?_⟩
          have hor := hiff.mp rfl
          omega
        · intro _
          rfl
    · rw [if_neg (not_not_intro h1), if_pos h2]
      constructor
      · intro h; exact absurd h Bool.false_ne_true
      · intro h; exact absurd h.2.1 h2
  · rw [if_pos h1]
    constructor
    · intro h; exact absurd h Bool.false_ne_true
    · intro h; exact absurd h.1 h1

/-- C8 counterexample: a card whose flat buffer length (3) is *not*
`Channels × BufferSize` (1 × 2) is still constructed successfully, because the
code only compares `Channels` with the truncating division
`Data.size() / BufferSize` (3 / 2 = 1). -/
theorem C8_counterexample_div_truncation :
    isOkE (RawCard.construct 0 1 2 2 [1, 2, 3] [7] [0]) = true ∧ (3 : ℕ) ≠ 1 * 2 := by
  decide

/-- C8 witness: a concrete well-formed card construction succeeds. -/
theorem C8_witness :
    (0 : ℕ) < 2 ∧ (0 : ℕ) < 1 ∧
    isOkE (RawCard.construct 0 1 2 1 [5, 6] [9, 9] [3]) = true :=
  ⟨by decide, by decide,
    (C8_construct_ok_iff 0 1 2 1 [5, 6] [9, 9] [3] (by decide) (by decide)).mpr
      (by decide)⟩

/-- C1: the demultiplexer drops the second half-region of every channel.
Evaluating the embedded constructor on a single-channel card with
`BufferSize = 4`, `Data = [1, 2, 3, 4]` (where the claim — and the source's own
comment about grabbing "iterators to both starting locations" — require the
reconstructed channel to hold the concatenation of both half-length regions,
i.e. all 4 samples), the stored channel data is just the first half-region
`[1, 2]`: `RawChannel`'s constructor consumes the second *start* iterator
passed by `add_channel` as the *end* of the copied range. -/
theorem C1_channel_data_is_first_half_only :
    ((RawCard.construct 0 1 4 2 [1, 2, 3, 4] [7, 8] [0]).toOption.map fun card =>
        (lookupKey card.channels 0).map RawChannel.data) = some (some [1, 2])
    ∧ ([1, 2] : List ℤ) ≠ [1, 2] ++ [3, 4]
    ∧ ([1, 2] : List ℤ).length ≠ 4 := by
  decide

lemma tank_charge_channels_error (card_id mb : ℤ) :
    ∀ (chmap : ChannelPulseMap) (channel_id : ℤ) (minibuffer_map : MinibufferPulseMap),
    (channel_id, minibuffer_map) ∈ chmap →
    (card_id, channel_id) ∉ excluded_card_channel_pairs →
    lookupKey minibuffer_map mb = none →
    tank_charge_channels card_id mb chmap = .error "map::at: key not found" := by
  intro chmap
  induction chmap with
  | nil => intro _ _ h _ _; cases h
  | cons head rest ih =>
    intro channel_id minibuffer_map hmem hexcl hnone
    rcases head with ⟨cid, mbm⟩
    rw [tank_charge_channels]
    rcases List.mem_cons.mp hmem with heq | htail
    · rcases Prod.mk.injEq .. ▸ heq with ⟨h1, h2⟩
      subst h1; subst h2
      rw [if_neg hexcl]
      rw [mapAt, hnone, except_bind_error]
    · by_cases hex : (card_id, cid) ∈ excluded_card_channel_pairs
      · rw [if_pos hex]
        exact ih channel_id minibuffer_map htail hexcl hnone
      · rw [if_neg hex]
        cases hm : lookupKey mbm mb with
        | none => rw [mapAt, hm, except_bind_error]
        | some ps =>
          rw [mapAt, hm, except_bind_ok,
            ih channel_id minibuffer_map htail hexcl hnone, except_bind_error]

lemma tank_charge_channels_error_msg (card_id mb : ℤ) :
    ∀ (chmap : ChannelPulseMap) (e : String),
    tank_charge_channels card_id mb chmap = .error e →
    e = "map::at: key not found" := by
  intro chmap
  induction chmap with
  | nil => intro e h; cases h
  | cons head rest ih =>
    intro e h
    rcases head with ⟨cid, mbm⟩
    rw [tank_charge_channels] at h
    by_cases hex : (card_id, cid) ∈ excluded_card_channel_pairs
    · rw [if_pos hex] at h
      exact ih e h
    · rw [if_neg hex] at h
      cases hm : lookupKey mbm mb with
      | none =>
        rw [mapAt, hm, except_bind_error] at h
        cases h
        rfl
      | some ps =>
        rw [mapAt, hm, except_bind_ok] at h
        cases hr : tank_charge_channels card_id mb rest with
        | error e2 =>
          rw [hr, except_bind_error] at h
          cases h
          exact ih _ hr
        | ok s =>
          rw [hr, except_bind_ok] at h
          cases h

lemma tank_charge_cards_error (mb : ℤ) :
    ∀ (cards : CardPulseMap) (card_id : ℤ) (channel_map : ChannelPulseMap),
    (card_id, channel_map) ∈ cards →
    card_id ∈ water_pmt_cards →
    tank_charge_channels card_id mb channel_map = .error "map::at: key not found" →
    tank_charge_cards mb cards = .error "map::at: key not found" := by
  intro cards
  induction cards with
  | nil => intro _ _ h _ _; cases h
  | cons head rest ih =>
    intro card_id channel_map hmem hwater herr
    rcases head with ⟨cid, chm⟩
    rw [tank_charge_cards]
    rcases List.mem_cons.mp hmem with heq | htail
    · rcases Prod.mk.injEq .. ▸ heq with ⟨h1, h2⟩
      subst h1; subst h2
      rw [if_pos hwater, herr, except_bind_error]
    · by_cases hw : cid ∈ water_pmt_cards
      · rw [if_pos hw]
        cases hc : tank_charge_channels cid mb chm with
        | error e =>
          rw [except_bind_error]
          rw [tank_charge_channels_error_msg cid mb chm e hc]
        | ok a =>
          rw [except_bind_ok, ih card_id channel_map htail hwater herr,
            except_bind_error]
      · rw [if_neg hw]
        exact ih card_id channel_map htail hwater herr

/-- C10: for every reconstructed readout storing pulses for a water-tank card,
the per-minibuffer tank-charge query fails with the missing-key lookup error
whenever some stored, non-excluded channel of such a card has no pulse entry
for the requested minibuffer index: the absent minibuffer entry is not treated
as contributing zero charge. -/
theorem C10_tank_charge_missing_key_fails
    (rr : RecoReadout) (mb card_id channel_id : ℤ)
    (channel_map : ChannelPulseMap) (minibuffer_map : MinibufferPulseMap)
    (hcard : (card_id, channel_map) ∈ rr.pulses)
    (hwater : card_id ∈ water_pmt_cards)
    (hch : (channel_id, minibuffer_map) ∈ channel_map)
    (hexcl : (card_id, channel_id) ∉ excluded_card_channel_pairs)
    (hmissing : lookupKey minibuffer_map mb = none) :
    rr.tank_charge mb = .error "map::at: key not found" :=
  tank_charge_cards_error mb rr.pulses card_id channel_map hcard hwater
    (tank_charge_channels_error card_id mb channel_map channel_id minibuffer_map
      hch hexcl hmissing)

/-- C10 witness: a readout with pulses stored for water-tank card 4, channel 0,
but only under minibuffer 1, makes the tank-charge query for minibuffer 0
throw. -/
theorem C10_witness :
    ((4 : ℤ), ([((0 : ℤ), [((1 : ℤ), ([] : List RecoPulse))])] : ChannelPulseMap)) ∈
        (RecoReadout.mk 0 [(4, [(0, [(1, [])])])]).pulses
    ∧ (4 : ℤ) ∈ water_pmt_cards
    ∧ ((4 : ℤ), (0 : ℤ)) ∉ excluded_card_channel_pairs
    ∧ RecoReadout.tank_charge (RecoReadout.mk 0 [(4, [(0, [(1, [])])])]) 0 =
        .error "map::at: key not found" :=
  ⟨by decide, by decide, by decide,
    C10_tank_charge_missing_key_fails (RecoReadout.mk 0 [(4, [(0, [(1, [])])])])
      0 4 0 [(0, [(1, [])])] [(1, [])] (by decide) (by decide) (by decide)
      (by decide) (by decide)⟩

/-- C4: whenever `event_time ≤ previous_accepted_time + VETO_TIME`, the
approval predicate returns false no matter what the readout contains (so
regardless of the tank-charge and coincidence cuts); in particular a second
candidate 500 ns after the previously accepted time is always rejected. -/
theorem C4_dead_time_veto (event_time old_time : ℚ) (pulse : RecoPulse)
    (readout : RecoReadout) (minibuffer_index : ℤ)
    (hveto : event_time ≤ old_time + VETO_TIME) :
    approve_event event_time old_time pulse readout minibuffer_index = .ok false
    ∧ ∀ (t : ℚ) (pulse' : RecoPulse) (readout' : RecoReadout) (mb' : ℤ),
        approve_event (t + 500) t pulse' readout' mb' = .ok false := by
  constructor
  · rw [approve_event, if_pos hveto]
  · intro t pulse' readout' mb'
    have h : t + 500 ≤ t + VETO_TIME := by
      rw [VETO_TIME]
      linarith
    rw [approve_event, if_pos h]

/-- C4 witness: a pulse 500 ns after the previous accepted time is rejected. -/
theorem C4_witness :
    (600 : ℚ) ≤ 100 + VETO_TIME ∧
    approve_event 600 100 (RecoPulse.mk 0 0 0 0) (RecoReadout.mk 0 []) 0 =
      .ok false :=
  ⟨by norm_num [VETO_TIME],
    (C4_dead_time_veto 600 100 (RecoPulse.mk 0 0 0 0) (RecoReadout.mk 0 []) 0
      (by norm_num [VETO_TIME])).1⟩

lemma tank_charge_window_channels_spec (card_id mb : ℤ) (t0 t1 : ℕ)
    (chmap : ChannelPulseMap) :
    tank_charge_window_channels card_id mb t0 t1 chmap =
      (((chmap.bind (fun chp =>
          if (card_id, chp.1) ∈ excluded_card_channel_pairs then []
          else [pulsesInWindow t0 t1 ((lookupKey chp.2 mb).getD [])])).map
            chargeSum).sum,
       ((chmap.bind (fun chp =>
          if (card_id, chp.1) ∈ excluded_card_channel_pairs then []
          else [pulsesInWindow t0 t1 ((lookupKey chp.2 mb).getD [])])).filter
            (fun g => !g.isEmpty)).length) := by
  induction chmap with
  | nil => simp [tank_charge_window_channels]
  | cons head rest ih =>
    rcases head with ⟨cid, mbm⟩
    rw [tank_charge_window_channels]
    by_cases hex : (card_id, cid) ∈ excluded_card_channel_pairs
    · simp only [List.cons_bind, if_pos hex, List.nil_append, ih]
    · simp only [List.cons_bind, if_neg hex, List.singleton_append, ih,
        List.map_cons, List.sum_cons, List.filter_cons]
      cases hemp : (pulsesInWindow t0 t1 ((lookupKey mbm mb).getD [])).isEmpty with
      | true => simp [hemp]
      | false => simp [hemp, Nat.add_comm]

lemma tank_charge_window_cards_spec (mb : ℤ) (t0 t1 : ℕ)
    (cards : CardPulseMap) :
    tank_charge_window_cards mb t0 t1 cards =
      (((cards.bind (fun cp =>
          if cp.1 ∈ water_pmt_cards then
            cp.2.bind (fun chp =>
              if (cp.1, chp.1) ∈ excluded_card_channel_pairs then []
              else [pulsesInWindow t0 t1 ((lookupKey chp.2 mb).getD [])])
          else [])).map chargeSum).sum,
       ((cards.bind (fun cp =>
          if cp.1 ∈ water_pmt_cards then
            cp.2.bind (fun chp =>
              if (cp.1, chp.1) ∈ excluded_card_channel_pairs then []
              else [pulsesInWindow t0 t1 ((lookupKey chp.2 mb).getD [])])
          else [])).filter (fun g => !g.isEmpty)).length) := by
  induction cards with
  | nil => simp [tank_charge_window_cards]
  | cons head rest ih =>
    rcases head with ⟨cid, chm⟩
    rw [tank_charge_window_cards]
    by_cases hw : cid ∈ water_pmt_cards
    · simp only [List.cons_bind, if_pos hw, ih,
        tank_charge_window_channels_spec cid mb t0 t1 chm,
        List.map_append, List.sum_append, List.filter_append,
        List.length_append]
    · simp only [List.cons_bind, if_neg hw, List.nil_append, ih]

/-- C3 (the four-argument tank-charge overload is modelled from the spec):
for a candidate that passed the dead-time veto, the tank-wide charge veto sums
exactly the charges of the pulses of non-excluded water-tank channels starting
in [candidate.start_time, candidate.start_time + 40), counts the distinct
contributing channels, and rejects exactly when that count reaches 8 or the
summed charge reaches 3 nC — otherwise approval is decided by the coincidence
scan alone. -/
theorem C3_tank_charge_veto (event_time old_time : ℚ) (pulse : RecoPulse)
    (rr : RecoReadout) (mb : ℤ)
    (hpass : ¬ (event_time ≤ old_time + VETO_TIME)) :
    (rr.tank_charge_window mb pulse.start_time
        (pulse.start_time + TANK_CHARGE_WINDOW_LENGTH)).1 =
      ((c3_window_groups rr mb pulse.start_time
        (pulse.start_time + TANK_CHARGE_WINDOW_LENGTH)).map chargeSum).sum
    ∧ (rr.tank_charge_window mb pulse.start_time
        (pulse.start_time + TANK_CHARGE_WINDOW_LENGTH)).2 =
      ((c3_window_groups rr mb pulse.start_time
        (pulse.start_time + TANK_CHARGE_WINDOW_LENGTH)).filter
          (fun g => !g.isEmpty)).length
    ∧ ((UNIQUE_WATER_PMT_CUT ≤ (rr.tank_charge_window mb pulse.start_time
          (pulse.start_time + TANK_CHARGE_WINDOW_LENGTH)).2 ∨
        TANK_CHARGE_CUT ≤ (rr.tank_charge_window mb pulse.start_time
          (pulse.start_time + TANK_CHARGE_WINDOW_LENGTH)).1) →
        approve_event event_time old_time pulse rr mb = .ok false)
    ∧ ((rr.tank_charge_window mb pulse.start_time
          (pulse.start_time + TANK_CHARGE_WINDOW_LENGTH)).2 <
            UNIQUE_WATER_PMT_CUT →
        (rr.tank_charge_window mb pulse.start_time
          (pulse.start_time + TANK_CHARGE_WINDOW_LENGTH)).1 < TANK_CHARGE_CUT →
        approve_event event_time old_time pulse rr mb =
          (rr.get_pulses 18 0 mb >>= fun ncv2 =>
            .ok (ncv_coincidence_found pulse ncv2))) := by
  refine ⟨?_, ?_, ?_, ?_⟩
  · rw [RecoReadout.tank_charge_window, tank_charge_window_cards_spec,
      c3_window_groups]
  · rw [RecoReadout.tank_charge_window, tank_charge_window_cards_spec,
      c3_window_groups]
  · intro hcut
    rw [approve_event, if_neg hpass]
    rcases hcut with h | h
    · rw [if_pos h]
    · by_cases h2 : UNIQUE_WATER_PMT_CUT ≤ (rr.tank_charge_window mb
          pulse.start_time (pulse.start_time + TANK_CHARGE_WINDOW_LENGTH)).2
      · rw [if_pos h2]
      · rw [if_neg h2, if_pos h]
  · intro hn hq
    rw [approve_event, if_neg hpass, if_neg (not_le.mpr hn),
      if_neg (not_le.mpr hq)]

/-- C3 witness: with an empty readout the windowed tank charge is (0, 0), the
veto passes, and approval reduces to the (failing) paired-channel lookup. -/
theorem C3_witness :
    ¬ ((5000 : ℚ) ≤ 0 + VETO_TIME) ∧
    ((RecoReadout.mk 0 []).tank_charge_window 0 (100 : ℕ)
        ((100 : ℕ) + TANK_CHARGE_WINDOW_LENGTH)).1 =
      ((c3_window_groups (RecoReadout.mk 0 []) 0 100
        (100 + TANK_CHARGE_WINDOW_LENGTH)).map chargeSum).sum :=
  ⟨by norm_num [VETO_TIME],
    (C3_tank_charge_veto 5000 0 (RecoPulse.mk 100 0 0 0) (RecoReadout.mk 0 []) 0
      (by norm_num [VETO_TIME])).1⟩

lemma update_last_beam_time_eq (label : ℤ) (time last_beam_time : ℕ) :
    update_last_beam_time label time last_beam_time =
      if label = BEAM_MINIBUFFER_LABEL then time else last_beam_time := by
  by_cases h : label = BEAM_MINIBUFFER_LABEL
  · subst h
    rfl
  · rw [update_last_beam_time, if_neg h]
    cases hb : is_background_minibuffer label <;> simp

lemma hefty_minibuffer_event_times_ok (label : ℤ) (time ref : ℕ)
    (ps : List RecoPulse)
    (h : label = SOURCE_MINIBUFFER_LABEL ∨ ref ≤ time ∨ ps = []) :
    hefty_minibuffer_event_times label time ref ps =
      .ok (ps.map (claim_event_time label time ref)) := by
  rcases h with h | h | h
  · subst h
    induction ps with
    | nil => rfl
    | cons p ps ih =>
      rw [hefty_minibuffer_event_times, hefty_event_time]
      rw [if_neg (by simp), except_bind_ok, ih, except_bind_ok]
      rw [List.map_cons, claim_event_time, if_pos rfl]
  · induction ps with
    | nil => rfl
    | cons p ps ih =>
      rw [hefty_minibuffer_event_times, hefty_event_time]
      by_cases hs : label = SOURCE_MINIBUFFER_LABEL
      · rw [if_neg (not_not_intro hs), except_bind_ok, ih, except_bind_ok]
        rw [List.map_cons, claim_event_time, if_pos hs]
      · rw [if_pos hs, if_neg (Nat.not_lt.mpr h), except_bind_ok, ih,
          except_bind_ok, List.map_cons, claim_event_time, if_neg hs]
        congr 1
        have hc : ((time - ref : ℕ) : ℚ) = (time : ℚ) - (ref : ℚ) := by
          push_cast [h]
          ring
        rw [hc]
  · subst h
    rfl

/-- C2: in the Hefty timing loop, with minibuffers visited in ascending order
and `last_beam_time` updated to the timestamp of every beam-labeled minibuffer
(including the current one, before its pulses are processed): (1) when no
non-calibration-source minibuffer with pulses has a timestamp below the
reference in force, every pulse's event time equals
start_time + (timestamp − reference), with a zero offset in
calibration-source minibuffers; (2) the first non-calibration-source
minibuffer with a pulse whose timestamp precedes the reference makes the loop
fail with the invalid-timestamp error. -/
theorem C2_hefty_event_time_reconstruction :
    (∀ (mbs : List (ℤ × ℕ × List RecoPulse)) (last0 : ℕ),
      c2_validB last0 mbs = true →
      hefty_event_time_loop mbs last0 =
        .ok (claim_event_times last0 mbs, claim_ref_time last0 mbs)) ∧
    (∀ (pre : List (ℤ × ℕ × List RecoPulse)) (label : ℤ) (time : ℕ)
       (p : RecoPulse) (ps : List RecoPulse)
       (rest : List (ℤ × ℕ × List RecoPulse)) (last0 : ℕ),
      c2_validB last0 pre = true →
      label ≠ SOURCE_MINIBUFFER_LABEL →
      time < (if label = BEAM_MINIBUFFER_LABEL then time
              else claim_ref_time last0 pre) →
      hefty_event_time_loop (pre ++ (label, time, p :: ps) :: rest) last0 =
        .error invalid_timestamp_msg) := by
  constructor
  · intro mbs
    induction mbs with
    | nil => intro last0 _; rfl
    | cons head rest ih =>
      rcases head with ⟨label, time, ps⟩
      intro last0 hvalid
      rw [c2_validB, Bool.and_eq_true] at hvalid
      rcases hvalid with ⟨hhead, hrest⟩
      rw [hefty_event_time_loop, update_last_beam_time_eq]
      have hh : label = SOURCE_MINIBUFFER_LABEL ∨
          (if label = BEAM_MINIBUFFER_LABEL then time else last0) ≤ time ∨
          ps = [] := by
        rcases Bool.or_eq_true_iff.mp hhead with h | h
        · rcases Bool.or_eq_true_iff.mp h with h' | h'
          · exact Or.inl (of_decide_eq_true h')
          · exact Or.inr (Or.inl (of_decide_eq_true h'))
        · exact Or.inr (Or.inr (List.isEmpty_iff.mp h))
      rw [hefty_minibuffer_event_times_ok label time _ ps hh, except_bind_ok,
        ih _ hrest, except_bind_ok]
      rw [claim_event_times, claim_ref_time]
  · intro pre
    induction pre with
    | nil =>
      intro label time p ps rest last0 _ hsrc hlt
      rw [claim_ref_time] at hlt
      rw [List.nil_append, hefty_event_time_loop, update_last_beam_time_eq]
      rw [hefty_minibuffer_event_times, hefty_event_time, if_pos hsrc,
        if_pos hlt, except_bind_error, except_bind_error]
    | cons head pre' ih =>
      rcases head with ⟨label0, time0, ps0⟩
      intro label time p ps rest last0 hvalid hsrc hlt
      rw [c2_validB, Bool.and_eq_true] at hvalid
      rcases hvalid with ⟨hhead, hrest⟩
      rw [claim_ref_time] at hlt
      rw [List.cons_append, hefty_event_time_loop, update_last_beam_time_eq]
      have hh : label0 = SOURCE_MINIBUFFER_LABEL ∨
          (if label0 = BEAM_MINIBUFFER_LABEL then time0 else last0) ≤ time0 ∨
          ps0 = [] := by
        rcases Bool.or_eq_true_iff.mp hhead with h | h
        · rcases Bool.or_eq_true_iff.mp h with h' | h'
          · exact Or.inl (of_decide_eq_true h')
          · exact Or.inr (Or.inl (of_decide_eq_true h'))
        · exact Or.inr (Or.inr (List.isEmpty_iff.mp h))
      rw [hefty_minibuffer_event_times_ok label0 time0 _ ps0 hh, except_bind_ok,
        ih label time p ps rest _ hrest hsrc hlt, except_bind_error]

/-- C2 witness: the spec's concrete scenario — a beam minibuffer stamped
1000000 ns followed by an NCV self-trigger minibuffer stamped 1002050 ns with
one pulse at start time 50 ns yields event time 2100 ns. -/
theorem C2_witness :
    c2_validB 0 [(BEAM_MINIBUFFER_LABEL, 1000000, []),
        (NCV_MINIBUFFER_LABEL, 1002050, [RecoPulse.mk 50 0 0 0])] = true ∧
    hefty_event_time_loop [(BEAM_MINIBUFFER_LABEL, 1000000, []),
        (NCV_MINIBUFFER_LABEL, 1002050, [RecoPulse.mk 50 0 0 0])] 0 =
      .ok (claim_event_times 0 [(BEAM_MINIBUFFER_LABEL, 1000000, []),
        (NCV_MINIBUFFER_LABEL, 1002050, [RecoPulse.mk 50 0 0 0])],
        claim_ref_time 0 [(BEAM_MINIBUFFER_LABEL, 1000000, []),
        (NCV_MINIBUFFER_LABEL, 1002050, [RecoPulse.mk 50 0 0 0])]) ∧
    claim_event_times 0 [(BEAM_MINIBUFFER_LABEL, 1000000, []),
        (NCV_MINIBUFFER_LABEL, 1002050, [RecoPulse.mk 50 0 0 0])] = [2100] :=
  ⟨by decide,
    C2_hefty_event_time_reconstruction.1 _ 0 (by decide),
    by norm_num [claim_event_times, claim_event_time, claim_ref_time,
      NCV_MINIBUFFER_LABEL, BEAM_MINIBUFFER_LABEL, SOURCE_MINIBUFFER_LABEL]⟩

lemma c5_event_time_eval :
    hefty_event_time NCV_MINIBUFFER_LABEL 1000 0 (RecoPulse.mk 50 0 0 0) =
      .ok 1050 := by
  rw [hefty_event_time, if_pos (by decide), if_neg (by decide)]
  norm_num

lemma c5_tank_charge_eval :
    c5_readout.tank_charge_window 0 (RecoPulse.mk 50 0 0 0).start_time
      ((RecoPulse.mk 50 0 0 0).start_time + TANK_CHARGE_WINDOW_LENGTH) =
      (0, 0) := by
  norm_num [c5_readout, RecoReadout.tank_charge_window, tank_charge_window_cards,
    tank_charge_window_channels, water_pmt_cards, excluded_card_channel_pairs]

lemma c5_approve_eval :
    approve_event 1050 DBL_LOWEST (RecoPulse.mk 50 0 0 0) c5_readout 0 =
      .ok true := by
  have hveto : ¬ ((1050 : ℚ) ≤ DBL_LOWEST + VETO_TIME) := by
    norm_num [DBL_LOWEST, VETO_TIME]
  rw [approve_event, if_neg hveto, c5_tank_charge_eval,
    if_neg (by decide), if_neg (by decide)]
  have hget : c5_readout.get_pulses 18 0 0 = .ok [RecoPulse.mk 55 0 0 0] := rfl
  rw [hget, except_bind_ok,
    show ncv_coincidence_found (RecoPulse.mk 50 0 0 0)
      [RecoPulse.mk 55 0 0 0] = true from by decide]

/-- C5 counterexample: in the Hefty accumulation loop, a minibuffer processed
with an unknown beam reference (`last_beam_time = 0`) whose single pulse is
approved by the cut cascade (event time 1050 ns) leaves
`previous_accepted_time` at the lowest-double start sentinel instead of
updating it to the event time — refuting "updated to event_time on every
acceptance ... in both accumulation loops". -/
theorem C5_counterexample_unknown_beam_acceptance :
    hefty_process_pulses c5_readout 0 NCV_MINIBUFFER_LABEL 1000 0
        [RecoPulse.mk 50 0 0 0] =
      .ok (DBL_LOWEST, [true], [])
    ∧ hefty_event_time NCV_MINIBUFFER_LABEL 1000 0 (RecoPulse.mk 50 0 0 0) =
      .ok 1050
    ∧ DBL_LOWEST ≠ (1050 : ℚ) := by
  refine ⟨?_, c5_event_time_eval, by norm_num [DBL_LOWEST]⟩
  rw [hefty_process_pulses, hefty_pulse_loop, hefty_pulse_step,
    c5_event_time_eval, except_bind_ok, c5_approve_eval, except_bind_ok,
    if_pos rfl, if_neg (by decide), except_bind_ok, hefty_pulse_loop,
    except_bind_ok]
  rfl

lemma nonhefty_pulse_loop_last (rr : RecoReadout) :
    ∀ (ps : List RecoPulse) (old final : ℚ) (acc : List ℚ),
    nonhefty_pulse_loop rr ps old = .ok (final, acc) →
    final = acc.getLastD old := by
  intro ps
  induction ps with
  | nil =>
    intro old final acc h
    rw [nonhefty_pulse_loop] at h
    cases h
    rfl
  | cons p ps ih =>
    intro old final acc h
    rw [nonhefty_pulse_loop] at h
    cases hap : approve_event (p.start_time : ℚ) old p rr 0 with
    | error e =>
      rw [hap, except_bind_error] at h
      cases h
    | ok ap =>
      rw [hap, except_bind_ok] at h
      cases ap with
      | true =>
        rw [if_pos rfl] at h
        cases hrec : nonhefty_pulse_loop rr ps (p.start_time : ℚ) with
        | error e =>
          rw [hrec, except_bind_error] at h
          cases h
        | ok res =>
          obtain ⟨f2, a2⟩ := res
          rw [hrec, except_bind_ok] at h
          cases h
          rw [List.getLastD_cons]
          exact ih (p.start_time : ℚ) f2 a2 hrec
      | false =>
        rw [if_neg (by simp)] at h
        exact ih old final acc h

lemma hefty_pulse_step_cases (rr : RecoReadout) (m label : ℤ)
    (time lb : ℕ) (old : ℚ) (pulse : RecoPulse) (out : ℚ × Bool × Option ℚ)
    (h : hefty_pulse_step rr m label time lb old pulse = .ok out) :
    (out.2.2 = none ∧ out.1 = old) ∨
    (∃ et, out.2.2 = some et ∧ out.1 = et ∧ out.2.1 = true ∧ lb ≠ 0 ∧
      hefty_event_time label time lb pulse = .ok et) := by
  rw [hefty_pulse_step] at h
  cases hev : hefty_event_time label time lb pulse with
  | error e =>
    rw [hev, except_bind_error] at h
    cases h
  | ok et =>
    rw [hev, except_bind_ok] at h
    cases hap : approve_event et old pulse rr m with
    | error e =>
      rw [hap, except_bind_error] at h
      cases h
    | ok ap =>
      rw [hap, except_bind_ok] at h
      cases ap with
      | true =>
        rw [if_pos rfl] at h
        by_cases hlb : lb ≠ 0
        · rw [if_pos hlb] at h
          cases h
          exact Or.inr ⟨et, rfl, rfl, rfl, hlb, rfl⟩
        · rw [if_neg hlb] at h
          cases h
          exact Or.inl ⟨rfl, rfl⟩
      | false =>
        rw [if_neg (by simp)] at h
        cases h
        exact Or.inl ⟨rfl, rfl⟩

lemma hefty_pulse_loop_last (rr : RecoReadout) (m label : ℤ) (time lb : ℕ) :
    ∀ (ps : List RecoPulse) (old final : ℚ) (aps : List Bool) (fills : List ℚ),
    hefty_pulse_loop rr m label time lb ps old = .ok (final, aps, fills) →
    final = fills.getLastD old := by
  intro ps
  induction ps with
  | nil =>
    intro old final aps fills h
    rw [hefty_pulse_loop] at h
    cases h
    rfl
  | cons p ps ih =>
    intro old final aps fills h
    rw [hefty_pulse_loop] at h
    cases hstep : hefty_pulse_step rr m label time lb old p with
    | error e =>
      rw [hstep, except_bind_error] at h
      cases h
    | ok out =>
      rw [hstep, except_bind_ok] at h
      cases hrec : hefty_pulse_loop rr m label time lb ps out.1 with
      | error e =>
        rw [hrec, except_bind_error] at h
        cases h
      | ok res =>
        obtain ⟨f2, aps2, fills2⟩ := res
        rw [hrec, except_bind_ok] at h
        cases h
        rcases hefty_pulse_step_cases rr m label time lb old p out hstep with
          ⟨hnone, hold⟩ | ⟨et, hsome, hout, _, _, _⟩
        · rw [hnone]
          rw [hold] at hrec
          simpa using ih old f2 aps2 fills2 hrec
        · rw [hsome]
          rw [hout] at hrec
          have h2 := ih et f2 aps2 fills2 hrec
          rw [Option.toList_some, List.cons_append, List.getLastD_cons]
          simpa using h2

/-- C5 (amended): `previous_accepted_time` starts at the lowest-double
sentinel and is never changed by a rejected pulse, in both accumulation
loops; in the non-Hefty loop it always equals the last accepted event time
(or the sentinel when none), while in the Hefty loop it equals the last
*histogrammed* accepted event time: an acceptance with a known beam reference
updates it to the event time, but an acceptance with an unknown beam
reference (`last_beam_time = 0`) leaves it unchanged. -/
theorem C5_previous_accepted_time_invariant :
    (∀ (rr : RecoReadout) (ps : List RecoPulse) (final : ℚ) (acc : List ℚ),
      nonhefty_process_pulses rr ps = .ok (final, acc) →
      final = acc.getLastD DBL_LOWEST) ∧
    (∀ (rr : RecoReadout) (ps : List RecoPulse) (old final : ℚ) (acc : List ℚ),
      nonhefty_pulse_loop rr ps old = .ok (final, acc) →
      final = acc.getLastD old) ∧
    (∀ (rr : RecoReadout) (m label : ℤ) (time lb : ℕ) (ps : List RecoPulse)
       (final : ℚ) (aps : List Bool) (fills : List ℚ),
      hefty_process_pulses rr m label time lb ps = .ok (final, aps, fills) →
      final = fills.getLastD DBL_LOWEST) ∧
    (∀ (rr : RecoReadout) (m label : ℤ) (time lb : ℕ) (old : ℚ)
       (pulse : RecoPulse) (out : ℚ × Bool × Option ℚ),
      hefty_pulse_step rr m label time lb old pulse = .ok out →
      (out.2.2 = none ∧ out.1 = old) ∨
      (∃ et, out.2.2 = some et ∧ out.1 = et ∧ out.2.1 = true ∧ lb ≠ 0 ∧
        hefty_event_time label time lb pulse = .ok et)) := by
  refine ⟨?_, ?_, ?_, ?_⟩
  · intro rr ps final acc h
    exact nonhefty_pulse_loop_last rr ps DBL_LOWEST final acc h
  · intro rr ps old final acc h
    exact nonhefty_pulse_loop_last rr ps old final acc h
  · intro rr m label time lb ps final aps fills h
    exact hefty_pulse_loop_last rr m label time lb ps DBL_LOWEST final aps fills h
  · intro rr m label time lb old pulse out h
    exact hefty_pulse_step_cases rr m label time lb old pulse out h

/-- C5 witness: the invariant evaluated on an empty pulse stream. -/
theorem C5_witness :
    nonhefty_process_pulses (RecoReadout.mk 0 []) [] = .ok (DBL_LOWEST, []) ∧
    DBL_LOWEST = ([] : List ℚ).getLastD DBL_LOWEST :=
  ⟨rfl, C5_previous_accepted_time_invariant.1 (RecoReadout.mk 0 []) [] DBL_LOWEST [] rfl⟩

lemma containsKey_eq_mem {α : Type} (m : List (ℤ × α)) (k : ℤ) :
    containsKey m k = true ↔ k ∈ m.map Prod.fst := by
  rw [containsKey, List.any_eq_true]
  constructor
  · rintro ⟨p, hp, hdec⟩
    exact List.mem_map.mpr ⟨p, hp, of_decide_eq_true hdec⟩
  · intro hm
    rcases List.mem_map.mp hm with ⟨p, hp, hfst⟩
    exact ⟨p, hp, decide_eq_true hfst⟩

lemma containsKey_eq_false_iff {α : Type} (m : List (ℤ × α)) (k : ℤ) :
    containsKey m k = false ↔ k ∉ m.map Prod.fst := by
  rw [← containsKey_eq_mem]
  cases h : containsKey m k <;> simp

lemma keys_mapInsert_perm (k : ℤ) (v : ℕ) :
    ∀ (l : List (ℤ × ℕ)), k ∉ l.map Prod.fst →
    ((mapInsert k v l).map Prod.fst).Perm (k :: l.map Prod.fst) := by
  intro l
  induction l with
  | nil => intro _; simp [mapInsert]
  | cons head rest ih =>
    rcases head with ⟨k', v'⟩
    intro hk
    rw [List.map_cons] at hk
    have hk1 : k ≠ k' := fun h => hk (by simp [h])
    have hk2 : k ∉ rest.map Prod.fst := fun h => hk (by simp [h])
    rw [mapInsert]
    by_cases h1 : k < k'
    · rw [if_pos h1]
      exact List.Perm.refl _
    · rw [if_neg h1, if_neg hk1, List.map_cons, List.map_cons]
      exact ((ih hk2).cons k').trans (List.Perm.swap k k' _)

lemma sorted_mapInsert (k : ℤ) (v : ℕ) :
    ∀ (l : List (ℤ × ℕ)), k ∉ l.map Prod.fst →
    (l.map Prod.fst).Sorted (· < ·) →
    ((mapInsert k v l).map Prod.fst).Sorted (· < ·) := by
  intro l
  induction l with
  | nil => intro _ _; simp [mapInsert]
  | cons head rest ih =>
    rcases head with ⟨k', v'⟩
    intro hk hs
    rw [List.map_cons] at hk
    have hk1 : k ≠ k' := fun h => hk (by simp [h])
    have hk2 : k ∉ rest.map Prod.fst := fun h => hk (by simp [h])
    rw [List.map_cons, List.sorted_cons] at hs
    rcases hs with ⟨hlt, hsrest⟩
    rw [mapInsert]
    by_cases h1 : k < k'
    · rw [if_pos h1, List.map_cons, List.map_cons, List.sorted_cons]
      refine ⟨?_, ?_⟩
      · intro b hb
        rcases List.mem_cons.mp hb with rfl | hb'
        · exact h1
        · exact lt_trans h1 (hlt b hb')
      · rw [List.sorted_cons]
        exact ⟨hlt, hsrest⟩
    · rw [if_neg h1, if_neg hk1, List.map_cons, List.sorted_cons]
      have hk'k : k' < k := by
        rcases lt_trichotomy k k' with h | h | h
        · exact absurd h h1
        · exact absurd h hk1
        · exact h
      refine ⟨?_, ih hk2 hsrest⟩
      intro b hb
      rcases List.mem_cons.mp ((keys_mapInsert_perm k v rest hk2).mem_iff.mp hb)
        with h | h
      · exact h ▸ hk'k
      · exact hlt b h

lemma mem_mapInsert (k : ℤ) (v : ℕ) :
    ∀ (l : List (ℤ × ℕ)), k ∉ l.map Prod.fst →
    ∀ p : ℤ × ℕ, p ∈ mapInsert k v l ↔ (p = (k, v) ∨ p ∈ l) := by
  intro l
  induction l with
  | nil => intro _ p; simp [mapInsert]
  | cons head rest ih =>
    rcases head with ⟨k', v'⟩
    intro hk p
    rw [List.map_cons] at hk
    have hk1 : k ≠ k' := fun h => hk (by simp [h])
    have hk2 : k ∉ rest.map Prod.fst := fun h => hk (by simp [h])
    rw [mapInsert]
    by_cases h1 : k < k'
    · rw [if_pos h1]
      simp [or_comm, or_left_comm]
    · rw [if_neg h1, if_neg hk1]
      rw [List.mem_cons, ih hk2 p, List.mem_cons]
      tauto

lemma build_sequence_index_ok (fullIds : List ℤ) :
    ∀ (ids : List ℤ) (idx : ℕ) (acc : List (ℤ × ℕ)),
    fullIds.drop idx = ids →
    ids.Nodup →
    (∀ i ∈ ids, containsKey acc i = false) →
    ((acc.map Prod.fst).Sorted (· < ·)) →
    (∀ p ∈ acc, fullIds.get? p.2 = some p.1) →
    ∃ l, build_sequence_index ids idx acc = .ok l ∧
      ((l.map Prod.fst).Sorted (· < ·)) ∧
      (l.map Prod.fst).Perm (acc.map Prod.fst ++ ids) ∧
      (∀ p ∈ l, fullIds.get? p.2 = some p.1) := by
  intro ids
  induction ids with
  | nil =>
    intro idx acc _ _ _ hsort hmap
    exact ⟨acc, rfl, hsort, by simp, hmap⟩
  | cons id ids ih =>
    intro idx acc hdrop hnodup hfresh hsort hmap
    rw [build_sequence_index]
    have hcont : containsKey acc id = false := hfresh id (by simp)
    have hkacc : id ∉ acc.map Prod.fst := (containsKey_eq_false_iff acc id).mp hcont
    rw [hcont, if_neg (by simp)]
    have hdrop' : fullIds.drop (idx + 1) = ids := by
      rw [← List.tail_drop, hdrop]
      rfl
    have hget : fullIds.get? idx = some id := by
      have h0 : (fullIds.drop idx).get? 0 = some id := by rw [hdrop]; rfl
      rw [List.get?_drop] at h0
      simpa using h0
    have hnodup' : ids.Nodup := (List.nodup_cons.mp hnodup).2
    have hnotin : id ∉ ids := (List.nodup_cons.mp hnodup).1
    have hfresh' : ∀ i ∈ ids, containsKey (mapInsert id idx acc) i = false := by
      intro i hi
      rw [containsKey_eq_false_iff]
      intro hmem
      rcases List.mem_cons.mp
          ((keys_mapInsert_perm id idx acc hkacc).mem_iff.mp hmem) with h | h
      · exact hnotin (h ▸ hi)
      · exact (containsKey_eq_false_iff acc i).mp
          (hfresh i (List.mem_cons_of_mem _ hi)) h
    have hsort' := sorted_mapInsert id idx acc hkacc hsort
    have hmap' : ∀ p ∈ mapInsert id idx acc, fullIds.get? p.2 = some p.1 := by
      intro p hp
      rcases (mem_mapInsert id idx acc hkacc p).mp hp with rfl | hp'
      · exact hget
      · exact hmap p hp'
    obtain ⟨l, h1, h2, h3, h4⟩ := ih (idx + 1) (mapInsert id idx acc) hdrop'
      hnodup' hfresh' hsort' hmap'
    refine ⟨l, h1, h2, ?_, h4⟩
    have hstep := (keys_mapInsert_perm id idx acc hkacc).append_right ids
    refine (h3.trans hstep).trans ?_
    exact List.perm_middle.symm

lemma build_sequence_index_dup :
    ∀ (ids : List ℤ) (idx : ℕ) (acc : List (ℤ × ℕ)),
    ¬ (ids.Nodup ∧ ∀ i ∈ ids, containsKey acc i = false) →
    ∃ e, build_sequence_index ids idx acc = .error e := by
  intro ids
  induction ids with
  | nil =>
    intro idx acc h
    exact absurd ⟨List.nodup_nil, by simp⟩ h
  | cons id ids ih =>
    intro idx acc h
    rw [build_sequence_index]
    cases hc : containsKey acc id with
    | true => exact ⟨_, by rw [if_pos rfl]⟩
    | false =>
      rw [if_neg (by simp)]
      have hkacc : id ∉ acc.map Prod.fst := (containsKey_eq_false_iff acc id).mp hc
      apply ih (idx + 1) (mapInsert id idx acc)
      rintro ⟨hnd, hfresh⟩
      apply h
      constructor
      · rw [List.nodup_cons]
        refine ⟨?_, hnd⟩
        intro hmem
        have hfi := hfresh id hmem
        rw [containsKey_eq_false_iff] at hfi
        exact hfi ((keys_mapInsert_perm id idx acc hkacc).mem_iff.mpr (by simp))
      · intro i hi
        rcases List.mem_cons.mp hi with rfl | hi'
        · exact hc
        · have h2 := hfresh i hi'
          rw [containsKey_eq_false_iff] at h2 ⊢
          intro hmem
          exact h2 ((keys_mapInsert_perm id idx acc hkacc).mem_iff.mpr
            (List.mem_cons_of_mem _ hmem))

/-- C6: for a metadata chunk with pairwise-distinct sequence ids, index
construction succeeds and the subsequent merge visits the joined records in
strictly ascending sequence-id order — the iterated keys are sorted, are
exactly the chunk's ids, and each is joined to its physical row; a repeated
id within a chunk makes index construction fail with the
duplicate-sequence-id error. -/
theorem C6_sequence_merge_ascending :
    (∀ ids : List ℤ, ids.Nodup →
      ∃ l, sequenceID_index ids = .ok l ∧
        ((l.map Prod.fst).Sorted (· < ·)) ∧
        (l.map Prod.fst).Perm ids ∧
        (∀ p ∈ l, ids.get? p.2 = some p.1)) ∧
    (∀ ids : List ℤ, ¬ ids.Nodup →
      ∃ e, sequenceID_index ids = .error e) := by
  constructor
  · intro ids hnd
    obtain ⟨l, h1, h2, h3, h4⟩ := build_sequence_index_ok ids ids 0 [] (by simp)
      hnd (by intro i _; rfl) (by simp) (by intro p hp; cases hp)
    exact ⟨l, h1, h2, by simpa using h3, h4⟩
  · intro ids hnd
    apply build_sequence_index_dup ids 0 []
    rintro ⟨h1, _⟩
    exact hnd h1

/-- C6 witness: the chunk [5, 2, 9], stored out of order, is visited as
2, 5, 9. -/
theorem C6_witness :
    ([5, 2, 9] : List ℤ).Nodup ∧
    (∃ l, sequenceID_index [5, 2, 9] = .ok l ∧
      ((l.map Prod.fst).Sorted (· < ·)) ∧
      (l.map Prod.fst).Perm [5, 2, 9] ∧
      (∀ p ∈ l, ([5, 2, 9] : List ℤ).get? p.2 = some p.1)) :=
  ⟨by decide, C6_sequence_merge_ascending.1 [5, 2, 9] (by decide)⟩

/-- C9: the subtraction of two values-with-error has value
a.value − b.value and error sqrt(a.error² + b.error²) (so the squared error is
the quadrature sum), and scaling by a constant k scales value and error
linearly (division by k divides both). -/
theorem C9_value_and_error_propagation (a b : ValueAndError) (k : ℝ) :
    (a.sub b).value = a.value - b.value ∧
    (a.sub b).error = Real.sqrt (a.error ^ 2 + b.error ^ 2) ∧
    (a.sub b).error ^ 2 = a.error ^ 2 + b.error ^ 2 ∧
    (a.mulConst k).value = k * a.value ∧
    (a.mulConst k).error = k * a.error ∧
    (a.divConst k).value = a.value / k ∧
    (a.divConst k).error = a.error / k := by
  refine ⟨rfl, rfl, ?_, rfl, rfl, rfl, rfl⟩
  have h : (0:ℝ) ≤ a.error ^ 2 + b.error ^ 2 := by positivity
  exact Real.sq_sqrt h

/-- C7 counterexample: at zero observed counts the non-Hefty accumulation
path propagates error 0, not the claimed max(1, sqrt 0) = 1; the variance
floor exists only in the Hefty path. -/
theorem C7_counterexample_nonhefty_unfloored :
    nonhefty_poisson_error 0 = 0 ∧ max (1:ℝ) (Real.sqrt 0) = 1 ∧
    nonhefty_poisson_error 0 ≠ max 1 (Real.sqrt 0) := by
  have hmax : max (1:ℝ) (Real.sqrt 0) = 1 := by
    rw [Real.sqrt_zero]
    exact max_eq_left zero_le_one
  refine ⟨by simp [nonhefty_poisson_error], hmax, ?_⟩
  rw [hmax]
  simp [nonhefty_poisson_error]

/-- C7 (amended): the Poisson floor error = max(1, sqrt count) is applied
only in the reference-synchronized (Hefty) accumulation path — where every
count between 0 and 1 (in particular an observed count of 0) gets error
exactly 1 — while the non-reference-synchronized path assigns the bare square
root, giving error 0 for a zero count. -/
theorem C7_poisson_floor_hefty_only (count : ℝ) (h0 : 0 ≤ count)
    (h1 : count ≤ 1) :
    hefty_poisson_error count = 1 ∧
    hefty_poisson_error 0 = 1 ∧
    nonhefty_poisson_error 0 = 0 ∧
    (∀ c : ℝ, nonhefty_poisson_error c = Real.sqrt c) := by
  refine ⟨?_, ?_, by simp [nonhefty_poisson_error], fun c => rfl⟩
  · rw [hefty_poisson_error]
    have hs : Real.sqrt count ≤ 1 := by
      rw [show (1:ℝ) = Real.sqrt 1 by simp]
      exact Real.sqrt_le_sqrt h1
    exact max_eq_left hs
  · rw [hefty_poisson_error, Real.sqrt_zero]
    exact max_eq_left zero_le_one

/-- C7 witness: a Hefty-path count of 1/4 is floored to error 1. -/
theorem C7_witness :
    (0:ℝ) ≤ 1/4 ∧ (1/4 : ℝ) ≤ 1 ∧ hefty_poisson_error (1/4) = 1 :=
  ⟨by norm_num, by norm_num,
    (C7_poisson_floor_hefty_only (1/4) (by norm_num) (by norm_num)).1⟩
